import Mathlib

/-!
Shallow embedding of the Motion Authenticity Evaluator (src/main.js).

Conventions of the embedding:
* JS numbers are modelled as real numbers (`ℝ`); `Math.hypot`, `Math.sqrt`,
  `Math.min/max` become `hypot`, `Real.sqrt`, `min`/`max`.
* `Math.random()` is modelled as an externally supplied stream
  `rand : ℕ → ℝ` of values in `[0, 1)`, consumed in call order.
* `performance.now()` readings are passed in as explicit `now` arguments.
* The DOM status line (`setStatus`) is modelled as a `StatusMsg`/`Tone`
  pair stored in the state; the fixed message strings of the source are
  represented one-to-one by `StatusMsg` constructors.
* `distanceToPath` starts from `Infinity` in the source, so it returns
  `WithTop ℝ` with `⊤` standing for `Infinity` (reached only when the
  point list has fewer than two points).
* Every `Sample` produced by the recorder carries a numeric `elapsed`
  field, so the `typeof elapsed === "number"` guard of `velocityStats`
  always takes its first branch; the embedding types `elapsed : ℝ`.
* Rendering-only code (`renderScene`, `drawGlowPath`, `drawBeacon`,
  `drawTrail`, `updateMetrics`, `getPointerPosition`) has no effect on
  the evaluator state and is not modelled.
-/

noncomputable section

/-- A plane point `{x, y}` (src/main.js data model). -/
structure Point where
  x : ℝ
  y : ℝ

/-- One recorded pointer sample `{x, y, dt, elapsed}` (src/main.js:75). -/
structure Sample where
  x : ℝ
  y : ℝ
  dt : ℝ
  elapsed : ℝ

/-- `const PATH_WIDTH = 44` (src/main.js:8). -/
def PATH_WIDTH : ℝ := 44

/-- `const START_RADIUS = 32` (src/main.js:9). -/
def START_RADIUS : ℝ := 32

/-- `const END_RADIUS = 36` (src/main.js:10). -/
def END_RADIUS : ℝ := 36

/-- `clamp(val, min, max)` (src/main.js:387-389). -/
def clamp (val lo hi : ℝ) : ℝ := max lo (min hi val)

/-- `randomRange(min, max)` (src/main.js:383-385), with the `Math.random()`
draw `r` passed explicitly. -/
def randomRange (lo hi r : ℝ) : ℝ := r * (hi - lo) + lo

/-- `Math.hypot(x, y)`. -/
def hypot (x y : ℝ) : ℝ := Real.sqrt (x * x + y * y)

/-- `isInsideCircle(point, center, radius)` (src/main.js:335-340). The
`!center` guard of the source can only fire when the path is empty; the
embedding passes an explicit center at every call site instead. -/
def isInsideCircle (point center : Point) (radius : ℝ) : Bool :=
  decide ((point.x - center.x) * (point.x - center.x) +
      (point.y - center.y) * (point.y - center.y) ≤ radius * radius)

/-- `distanceToSegment(p, a, b)` (src/main.js:350-362). -/
def distanceToSegment (p a b : Point) : ℝ :=
  let dx := b.x - a.x
  let dy := b.y - a.y
  if dx = 0 ∧ dy = 0 then hypot (p.x - a.x) (p.y - a.y)
  else
    let t := clamp (((p.x - a.x) * dx + (p.y - a.y) * dy) / (dx * dx + dy * dy)) 0 1
    let projX := a.x + t * dx
    let projY := a.y + t * dy
    hypot (p.x - projX) (p.y - projY)

/-- `distanceToPath(point, points)` (src/main.js:342-348): the minimum of
`distanceToSegment` over consecutive segments, starting from `Infinity`
(modelled as `⊤ : WithTop ℝ`). -/
def distanceToPath (p : Point) : List Point → WithTop ℝ
  | a :: b :: rest => min (↑(distanceToSegment p a b)) (distanceToPath p (b :: rest))
  | _ => ⊤

/-- Default sample used only to type `List.getD` index accesses; every
access below is within bounds. -/
def defaultSample : Sample := ⟨0, 0, 0, 0⟩

/-- The velocity list built by the loop of `velocityStats`
(src/main.js:242-257): window size 6, indices `i = 6 .. length-1`,
`dt = curr.elapsed - prev.elapsed` (both always numeric, see header),
skipping non-positive `dt`. -/
def velocitySamples (m : List Sample) : List ℝ :=
  (List.range' 6 (m.length - 6)).filterMap fun i =>
    let curr := m.getD i defaultSample
    let prev := m.getD (i - 6) defaultSample
    let dt := curr.elapsed - prev.elapsed
    if dt ≤ 0 then none
    else some (hypot (curr.x - prev.x) (curr.y - prev.y) / dt)

/-- `velocityStats(movements)` (src/main.js:236-267): `(mean, variance)`,
both `0` when `length ≤ 6` or when no velocity survives the `dt` filter. -/
def velocityStats (m : List Sample) : ℝ × ℝ :=
  if m.length ≤ 6 then (0, 0)
  else
    let vels := velocitySamples m
    if vels.length = 0 then (0, 0)
    else
      let mean := vels.sum / (vels.length : ℝ)
      let variance := ((vels.map fun v => (v - mean) ^ 2).sum) / (vels.length : ℝ)
      (mean, variance)

/-- `jitterScore(movements)` (src/main.js:269-277): the number of
consecutive pairs with `|Δx| < 3` and `|Δy| < 3`. -/
def jitterScore : List Sample → ℕ
  | a :: b :: rest =>
    (if |b.x - a.x| < 3 ∧ |b.y - a.y| < 3 then 1 else 0) + jitterScore (b :: rest)
  | _ => 0

/-- `idlePauses(movements)` (src/main.js:279-281): the number of samples
with `dt > 50`. -/
def idlePauses (m : List Sample) : ℕ :=
  (m.filter fun mv => decide (50 < mv.dt)).length

/-- The `(noisy, comparisons)` pair accumulated by the loop of
`directionNoiseRatio` (src/main.js:283-301), one entry per triple of
consecutive samples. -/
def dirCounts : List Sample → ℕ × ℕ
  | m0 :: m1 :: m2 :: rest =>
    let acc := dirCounts (m1 :: m2 :: rest)
    let prevVecX := m1.x - m0.x
    let prevVecY := m1.y - m0.y
    let currVecX := m2.x - m1.x
    let currVecY := m2.y - m1.y
    let prevMag := hypot prevVecX prevVecY
    let currMag := hypot currVecX currVecY
    if prevMag < 0.4 ∨ currMag < 0.4 then acc
    else
      let dotSim := (prevVecX * currVecX + prevVecY * currVecY) / (prevMag * currMag)
      if dotSim < 0.93 then (acc.1 + 1, acc.2 + 1) else (acc.1, acc.2 + 1)
  | _ => (0, 0)

/-- `directionNoiseRatio(movements)` (src/main.js:283-303):
`noisy / comparisons`, or `0` when no comparison was made. -/
def directionNoiseRatio (m : List Sample) : ℝ :=
  let counts := dirCounts m
  if counts.2 = 0 then 0 else (counts.1 : ℝ) / (counts.2 : ℝ)

/-- The feature values computed by `evaluateMovements`
(src/main.js:203-210). -/
structure FeatureSet where
  meanVelocity : ℝ
  variance : ℝ
  velocityStd : ℝ
  velocityCv : ℝ
  jitterCount : ℕ
  jitterRatio : ℝ
  directionNoise : ℝ
  pauses : ℕ
  samples : ℕ

/-- The `requirements` record of the verdict (src/main.js:232). -/
structure Requirements where
  passVariance : Bool
  passCv : Bool
  passDirection : Bool
  passChaos : Bool
  passJitter : Bool
  passPauses : Bool
  passSamples : Bool

/-- The object returned by `evaluateMovements` (src/main.js:221-233). -/
structure Verdict where
  pass : Bool
  features : FeatureSet
  requirements : Requirements

/-- The feature-extraction half of `evaluateMovements`
(src/main.js:203-210): velocity statistics, `velocityStd = sqrt(max(variance, 0))`,
`velocityCv = mean ? velocityStd / mean : 0`, jitter count and ratio,
direction noise, idle pauses, sample count. -/
def extractFeatures (m : List Sample) : FeatureSet :=
  let stats := velocityStats m
  let mean := stats.1
  let variance := stats.2
  let velocityStd := Real.sqrt (max variance 0)
  let velocityCv := if mean = 0 then 0 else velocityStd / mean
  let jitterCount := jitterScore m
  let jitterRatio := (jitterCount : ℝ) / ((max 1 (m.length - 1) : ℕ) : ℝ)
  { meanVelocity := mean, variance := variance, velocityStd := velocityStd,
    velocityCv := velocityCv, jitterCount := jitterCount, jitterRatio := jitterRatio,
    directionNoise := directionNoiseRatio m, pauses := idlePauses m,
    samples := m.length }

/-- The threshold half of `evaluateMovements` (src/main.js:212-233): the
seven requirement flags and the final `pass`. -/
def classify (f : FeatureSet) : Verdict :=
  let passVariance := decide (f.variance > 0.01)
  let passCv := decide (f.velocityCv > 0.25)
  let passDirection := decide (f.directionNoise > 0.08)
  let passChaos := passVariance || passCv || passDirection
  let passJitter := decide (f.jitterRatio > 0.1)
  let passPauses := decide (f.pauses ≥ 2)
  let passSamples := decide (f.samples > 70)
  { pass := passChaos && passJitter && passPauses && passSamples,
    features := f,
    requirements :=
      { passVariance := passVariance, passCv := passCv, passDirection := passDirection,
        passChaos := passChaos, passJitter := passJitter, passPauses := passPauses,
        passSamples := passSamples } }

/-- `evaluateMovements(movements)` (src/main.js:202-234). -/
def evaluateMovements (m : List Sample) : Verdict := classify (extractFeatures m)

/-- The loop of `createPathPoints` (src/main.js:374-378): `k` remaining
iterations, `i` the index of the next `Math.random()` draw, `(x, y)` the
current position. -/
def pathTail (stepX lo hi : ℝ) (rand : ℕ → ℝ) : ℕ → ℕ → ℝ → ℝ → List Point
  | 0, _, _, _ => []
  | k + 1, i, x, y =>
    let nx := x + stepX
    let ny := clamp (y + randomRange (-90) 90 (rand i)) lo hi
    ⟨nx, ny⟩ :: pathTail stepX lo hi rand k (i + 1) nx ny

/-- `createPathPoints(width, height)` (src/main.js:364-381):
`paddingX = 70`, `paddingY = 60`, `segments = 12`; the first point is
`(paddingX, height/2 + U(-30, 30))` and each of the 12 loop iterations
advances `x` by `stepX` and clamps `y + U(-90, 90)` into
`[paddingY, height - paddingY]`. -/
def createPathPoints (width height : ℝ) (rand : ℕ → ℝ) : List Point :=
  let paddingX : ℝ := 70
  let paddingY : ℝ := 60
  let segments : ℕ := 12
  let stepX := (width - paddingX * 2) / (segments : ℝ)
  let x0 := paddingX
  let y0 := height / 2 + randomRange (-30) 30 (rand 0)
  ⟨x0, y0⟩ :: pathTail stepX paddingY (height - paddingY) rand segments 1 x0 y0

/-- The tone of the status line (src/main.js:391-394). -/
inductive Tone
  | ready
  | recording
  | pass
  | fail

/-- The fixed status messages of the source, one constructor per string
(src/main.js:39, 49, 97, 70, 87, 112, 122-123). -/
inductive StatusMsg
  | hoverToBegin
  | attemptReset
  | recordingInProgress
  | edgeCollision
  | cursorLeftCanvas
  | traceTooShort
  | humanCleared
  | syntheticMotion

/-- The mutable module state `state` (src/main.js:12-21) together with the
status line written by `setStatus`. -/
structure St where
  pathPoints : List Point
  pathWidth : ℝ
  movements : List Sample
  trailPoints : List Point
  recording : Bool
  lastTime : ℝ
  elapsed : ℝ
  lastResult : Option Verdict
  statusMsg : StatusMsg
  statusTone : Tone

/-- `setStatus(text, tone)` (src/main.js:391-394). -/
def setStatus (s : St) (msg : StatusMsg) (tone : Tone) : St :=
  { s with statusMsg := msg, statusTone := tone }

/-- `generateNewPath()` (src/main.js:32-42), with the canvas bounds and
the random stream passed explicitly. -/
def generateNewPath (s : St) (width height : ℝ) (rand : ℕ → ℝ) : St :=
  setStatus
    { s with pathPoints := createPathPoints width height rand, movements := [],
             trailPoints := [], recording := false, elapsed := 0, lastResult := none }
    StatusMsg.hoverToBegin Tone.ready

/-- `resetAttempt()` (src/main.js:44-52). -/
def resetAttempt (s : St) : St :=
  setStatus { s with movements := [], trailPoints := [], recording := false, elapsed := 0 }
    StatusMsg.attemptReset Tone.ready

/-- `beginRecording()` (src/main.js:91-98), with the `performance.now()`
reading passed as `now`. -/
def beginRecording (s : St) (now : ℝ) : St :=
  setStatus
    { s with movements := [], trailPoints := [], recording := true, lastTime := now,
             elapsed := 0 }
    StatusMsg.recordingInProgress Tone.recording

/-- `failAttempt(message)` (src/main.js:100-107). -/
def failAttempt (s : St) (msg : StatusMsg) : St :=
  setStatus { s with recording := false, movements := [], trailPoints := [], elapsed := 0 }
    msg Tone.fail

/-- `completeAttempt()` (src/main.js:109-129). -/
def completeAttempt (s : St) : St :=
  let s1 := { s with recording := false }
  if s1.movements.length < 12 then failAttempt s1 StatusMsg.traceTooShort
  else
    let attempt := s1.movements
    let evaluation := evaluateMovements attempt
    let s2 := { s1 with lastResult := some evaluation }
    let s3 :=
      if evaluation.pass then setStatus s2 StatusMsg.humanCleared Tone.pass
      else setStatus s2 StatusMsg.syntheticMotion Tone.fail
    { s3 with movements := [], elapsed := 0 }

/-- `handlePointerMove(event)` (src/main.js:54-83), with the pointer
position and the `performance.now()` reading passed explicitly (the
source reads the clock once in `beginRecording` and once in the handler;
the embedding uses the single reading `now` for both). -/
def handlePointerMove (s : St) (pointer : Point) (now : ℝ) : St :=
  if s.pathPoints.length = 0 then s
  else
    let s1 :=
      if !s.recording && isInsideCircle pointer (s.pathPoints.headD ⟨0, 0⟩) START_RADIUS
      then { beginRecording s now with trailPoints := [] }
      else s
    if !s1.recording then s1
    else
      let dt := max (now - s1.lastTime) 0.1
      let s2 := { s1 with lastTime := now }
      if ((s2.pathWidth * 0.52 : ℝ) : WithTop ℝ) < distanceToPath pointer s2.pathPoints then
        failAttempt s2 StatusMsg.edgeCollision
      else
        let s3 :=
          { s2 with elapsed := s2.elapsed + dt,
                    movements := s2.movements ++ [⟨pointer.x, pointer.y, dt, s2.elapsed + dt⟩],
                    trailPoints := s2.trailPoints ++ [pointer] }
        if isInsideCircle pointer (s3.pathPoints.getLastD ⟨0, 0⟩) (END_RADIUS - 4) then
          completeAttempt s3
        else s3

/-- `handlePointerLeave()` (src/main.js:85-89). -/
def handlePointerLeave (s : St) : St :=
  if s.recording then failAttempt s StatusMsg.cursorLeftCanvas else s

/-- Test input: `n` samples on an exact straight line traversed at
constant velocity `v` with uniform time step `d`, starting at `p` with
initial elapsed time `e`. Sample `i` sits at `p + i • v` with
`elapsed = e + (i+1) * d`, as the recorder would produce for a uniform
pointer stream. -/
def straightTrace (d : ℝ) (v : Point) : ℕ → Point → ℝ → List Sample
  | 0, _, _ => []
  | n + 1, p, e => ⟨p.x, p.y, d, e + d⟩ :: straightTrace d v n ⟨p.x + v.x, p.y + v.y⟩ (e + d)

/-- A random stream that always draws `0` (the lowest value of
`Math.random()`). -/
def zeroRand : ℕ → ℝ := fun _ => 0

/-- A random stream that always draws `1/2`. -/
def halfRand : ℕ → ℝ := fun _ => 1 / 2

/-- Test input: a feature set whose only chaos signal is the variance
(`variance = 0.02`, `velocityCv = directionNoise = 0`). -/
def chaosOnlyFeatures : FeatureSet :=
  { meanVelocity := 0, variance := 0.02, velocityStd := 0, velocityCv := 0,
    jitterCount := 0, jitterRatio := 0, directionNoise := 0, pauses := 0, samples := 0 }

/-- Test input: a recording state over the two-point path
`[(0,0), (10,0)]` with the default path width. -/
def baseSt : St :=
  { pathPoints := [⟨0, 0⟩, ⟨10, 0⟩], pathWidth := PATH_WIDTH, movements := [],
    trailPoints := [], recording := true, lastTime := 0, elapsed := 0,
    lastResult := none, statusMsg := StatusMsg.recordingInProgress,
    statusTone := Tone.recording }

/-- Test input: `baseSt` with an 11-sample trace. -/
def st11 : St := { baseSt with movements := List.replicate 11 defaultSample }

/-- Test input: `baseSt` with a 12-sample trace. -/
def st12 : St := { baseSt with movements := List.replicate 12 defaultSample }

/-- Test input: `baseSt` with a non-empty trace and trail, about to
receive the pointer sample `(10, 30)`. -/
def collideSt : St :=
  { baseSt with movements := [⟨1, 1, 1, 1⟩], trailPoints := [⟨1, 1⟩], elapsed := 5 }

end

/-! Helper lemmas about the embedded functions. -/

/-- The path-generation loop produces one point per iteration. -/
theorem pathTail_length (stepX lo hi : ℝ) (rand : ℕ → ℝ) :
    ∀ (k i : ℕ) (x y : ℝ), (pathTail stepX lo hi rand k i x y).length = k := by
  intro k
  induction k with
  | zero => intro i x y; rfl
  | succ n ih => intro i x y; simpa [pathTail] using ih (i + 1) _ _

/-- Every point produced by the path-generation loop has its y-coordinate
clamped into `[lo, hi]` (for `lo ≤ hi`). -/
theorem pathTail_y_bounds (stepX lo hi : ℝ) (rand : ℕ → ℝ) (hlohi : lo ≤ hi) :
    ∀ (k i : ℕ) (x y : ℝ) (q : Point), q ∈ pathTail stepX lo hi rand k i x y →
      lo ≤ q.y ∧ q.y ≤ hi := by
  intro k
  induction k with
  | zero => intro i x y q hq; simp [pathTail] at hq
  | succ n ih =>
    intro i x y q hq
    simp only [pathTail, List.mem_cons] at hq
    rcases hq with rfl | hq
    · exact ⟨le_max_left _ _, max_le hlohi (min_le_left _ _)⟩
    · exact ih (i + 1) _ _ q hq

/-- With a positive x-step, the path-generation loop extends any starting
point into a strictly x-increasing chain. -/
theorem pathTail_chain (stepX lo hi : ℝ) (rand : ℕ → ℝ) (hstep : 0 < stepX) :
    ∀ (k i : ℕ) (x y : ℝ),
      List.Chain' (fun p q : Point => p.x < q.x)
        (⟨x, y⟩ :: pathTail stepX lo hi rand k i x y) := by
  intro k
  induction k with
  | zero => intro i x y; simp [pathTail]
  | succ n ih =>
    intro i x y
    simp only [pathTail]
    exact List.chain'_cons.mpr ⟨lt_add_of_pos_right x hstep, ih (i + 1) _ _⟩

/-- One unfolding step of the path-generation loop. -/
theorem pathTail_succ (stepX lo hi : ℝ) (rand : ℕ → ℝ) (k i : ℕ) (x y : ℝ) :
    pathTail stepX lo hi rand (k + 1) i x y =
      ⟨x + stepX, clamp (y + randomRange (-90) 90 (rand i)) lo hi⟩ ::
        pathTail stepX lo hi rand k (i + 1) (x + stepX)
          (clamp (y + randomRange (-90) 90 (rand i)) lo hi) := rfl

/-- The clamped projection parameter of `distanceToSegment` minimises the
squared distance over the segment better than either endpoint
(`s = 0` is the endpoint `a`, `s = 1` the endpoint `b`). -/
theorem clamp_proj_le (A B dx dy s : ℝ) (hD : 0 < dx * dx + dy * dy)
    (hs : s = 0 ∨ s = 1) :
    (A - clamp ((A * dx + B * dy) / (dx * dx + dy * dy)) 0 1 * dx) *
        (A - clamp ((A * dx + B * dy) / (dx * dx + dy * dy)) 0 1 * dx) +
      (B - clamp ((A * dx + B * dy) / (dx * dx + dy * dy)) 0 1 * dy) *
        (B - clamp ((A * dx + B * dy) / (dx * dx + dy * dy)) 0 1 * dy) ≤
      (A - s * dx) * (A - s * dx) + (B - s * dy) * (B - s * dy) := by
  set D := dx * dx + dy * dy with hDdef
  set N := A * dx + B * dy with hNdef
  have hND : (N / D) * D = N := div_mul_cancel₀ N hD.ne'
  rcases le_total (N / D) 0 with h0 | h0
  · have ht : clamp (N / D) 0 1 = 0 := by
      rw [clamp, min_eq_right (h0.trans zero_le_one), max_eq_left h0]
    rw [ht]
    have hN : N ≤ 0 := by
      nlinarith [mul_nonneg (neg_nonneg.mpr h0) hD.le]
    rcases hs with rfl | rfl
    · simp
    · nlinarith
  · rcases le_total 1 (N / D) with h1 | h1
    · have ht : clamp (N / D) 0 1 = 1 := by
        rw [clamp, min_eq_left h1, max_eq_right zero_le_one]
      rw [ht]
      have hN : D ≤ N := by
        nlinarith [mul_le_mul_of_nonneg_right h1 hD.le]
      rcases hs with rfl | rfl
      · nlinarith
      · simp
    · have ht : clamp (N / D) 0 1 = N / D := by
        rw [clamp, min_eq_right h1, max_eq_right h0]
      rw [ht]
      rcases hs with rfl | rfl
      · nlinarith [hND, sq_nonneg (N / D), mul_nonneg (mul_nonneg h0 h0) hD.le]
      · nlinarith [hND, sq_nonneg (1 - N / D),
          mul_nonneg (mul_nonneg (sub_nonneg.mpr h1) (sub_nonneg.mpr h1)) hD.le]

/-- C6: for every point and segment, `distanceToSegment` is at most the
distance to either endpoint, and on a degenerate segment (`a = b`) it
equals the point distance. -/
theorem C6_segment_distance (p a b : Point) :
    distanceToSegment p a b ≤ hypot (p.x - a.x) (p.y - a.y) ∧
    distanceToSegment p a b ≤ hypot (p.x - b.x) (p.y - b.y) ∧
    distanceToSegment p a a = hypot (p.x - a.x) (p.y - a.y) := by
  by_cases hdeg : b.x - a.x = 0 ∧ b.y - a.y = 0
  · have hbx : b.x = a.x := by linarith [hdeg.1]
    have hby : b.y = a.y := by linarith [hdeg.2]
    have hval : distanceToSegment p a b = hypot (p.x - a.x) (p.y - a.y) := by
      simp only [distanceToSegment, if_pos hdeg]
    refine ⟨le_of_eq hval, ?_, by simp [distanceToSegment]⟩
    rw [hval, hbx, hby]
  · have hD : 0 < (b.x - a.x) * (b.x - a.x) + (b.y - a.y) * (b.y - a.y) := by
      rcases not_and_or.mp hdeg with h | h
      · nlinarith [mul_self_pos.mpr h, mul_self_nonneg (b.y - a.y)]
      · nlinarith [mul_self_pos.mpr h, mul_self_nonneg (b.x - a.x)]
    have hval : distanceToSegment p a b =
        hypot
          (p.x - (a.x + clamp (((p.x - a.x) * (b.x - a.x) + (p.y - a.y) * (b.y - a.y)) /
              ((b.x - a.x) * (b.x - a.x) + (b.y - a.y) * (b.y - a.y))) 0 1 * (b.x - a.x)))
          (p.y - (a.y + clamp (((p.x - a.x) * (b.x - a.x) + (p.y - a.y) * (b.y - a.y)) /
              ((b.x - a.x) * (b.x - a.x) + (b.y - a.y) * (b.y - a.y))) 0 1 * (b.y - a.y))) := by
      simp only [distanceToSegment, if_neg hdeg]
    have h0 := clamp_proj_le (p.x - a.x) (p.y - a.y) (b.x - a.x) (b.y - a.y) 0 hD (Or.inl rfl)
    have h1 := clamp_proj_le (p.x - a.x) (p.y - a.y) (b.x - a.x) (b.y - a.y) 1 hD (Or.inr rfl)
    refine ⟨?_, ?_, by simp [distanceToSegment]⟩
    · rw [hval]
      apply Real.sqrt_le_sqrt
      nlinarith [h0]
    · rw [hval]
      apply Real.sqrt_le_sqrt
      nlinarith [h1]

/-- C1: for every feature set, the classifier passes iff
(variance > 0.01 or velocityCv > 0.25 or directionNoise > 0.08) and
jitterRatio > 0.1 and idlePauses ≥ 2 and sampleCount > 70; a feature set
with variance > 0.01 but velocityCv = 0 and directionNoise = 0 still has
passChaos = true; and every individual requirement flag is populated from
these same comparisons. -/
theorem C1_classifier_thresholds (f : FeatureSet) :
    ((classify f).pass = true ↔
      ((f.variance > 0.01 ∨ f.velocityCv > 0.25 ∨ f.directionNoise > 0.08) ∧
        f.jitterRatio > 0.1 ∧ 2 ≤ f.pauses ∧ 70 < f.samples)) ∧
    (f.variance > 0.01 ∧ f.velocityCv = 0 ∧ f.directionNoise = 0 →
      (classify f).requirements.passChaos = true) ∧
    ((classify f).requirements.passVariance = true ↔ f.variance > 0.01) ∧
    ((classify f).requirements.passCv = true ↔ f.velocityCv > 0.25) ∧
    ((classify f).requirements.passDirection = true ↔ f.directionNoise > 0.08) ∧
    ((classify f).requirements.passChaos = true ↔
      (f.variance > 0.01 ∨ f.velocityCv > 0.25 ∨ f.directionNoise > 0.08)) ∧
    ((classify f).requirements.passJitter = true ↔ f.jitterRatio > 0.1) ∧
    ((classify f).requirements.passPauses = true ↔ 2 ≤ f.pauses) ∧
    ((classify f).requirements.passSamples = true ↔ 70 < f.samples) := by
  refine ⟨?_, ?_, ?_, ?_, ?_, ?_, ?_, ?_, ?_⟩ <;>
    simp [classify, decide_eq_true_eq] <;> tauto

/-- Witness for C1 at a concrete feature set whose only chaos signal is
the variance. -/
theorem C1_classifier_thresholds_witness :
    (classify chaosOnlyFeatures).requirements.passChaos = true :=
  (C1_classifier_thresholds chaosOnlyFeatures).2.1
    (by norm_num [chaosOnlyFeatures])

/-- C2 (amended): for width strictly above 140 and height at least 180,
the generated path has exactly 13 points, strictly increasing
x-coordinates, and every y-coordinate (the unclamped first one included)
within [60, height - 60]. -/
theorem C2_path_generation (width height : ℝ) (rand : ℕ → ℝ)
    (hrand : ∀ i, 0 ≤ rand i ∧ rand i < 1)
    (hw : 140 < width) (hh : 180 ≤ height) :
    (createPathPoints width height rand).length = 13 ∧
    List.Chain' (fun p q : Point => p.x < q.x) (createPathPoints width height rand) ∧
    ∀ q ∈ createPathPoints width height rand, 60 ≤ q.y ∧ q.y ≤ height - 60 := by
  have hstep : 0 < (width - 70 * 2) / (((12 : ℕ) : ℝ)) := by
    apply div_pos (by linarith) (by norm_num)
  refine ⟨?_, ?_, ?_⟩
  · simp [createPathPoints, pathTail_length]
  · simp only [createPathPoints]
    exact pathTail_chain _ _ _ rand hstep 12 1 _ _
  · intro q hq
    simp only [createPathPoints, List.mem_cons] at hq
    rcases hq with rfl | hq
    · dsimp only
      simp only [randomRange]
      obtain ⟨hr0, hr1⟩ := hrand 0
      constructor <;> nlinarith
    · exact pathTail_y_bounds _ _ _ rand (by linarith) 12 1 _ _ q hq

/-- Witness for C2 at width 500, height 300 and the constant-1/2 random
stream. -/
theorem C2_path_generation_witness :
    (createPathPoints 500 300 halfRand).length = 13 ∧
    List.Chain' (fun p q : Point => p.x < q.x) (createPathPoints 500 300 halfRand) := by
  have h := C2_path_generation 500 300 halfRand
    (fun i => by norm_num [halfRand]) (by norm_num) (by norm_num)
  exact ⟨h.1, h.2.1⟩

/-- Counterexample for C2 as stated: at width 140 (the padding exactly
accommodated on both sides) and height 120 (vertical padding exactly
accommodated) with the all-zero random stream, the generator still
produces 13 points, but the first point's y-coordinate is 30, below the
lower bound 60, and the x-coordinates are not strictly increasing
(the step is 0). -/
theorem C2_path_generation_cex :
    (∀ i, 0 ≤ zeroRand i ∧ zeroRand i < 1) ∧
    (createPathPoints 140 120 zeroRand).length = 13 ∧
    (⟨70, 30⟩ : Point) ∈ createPathPoints 140 120 zeroRand ∧
    ¬ (60 : ℝ) ≤ (⟨(70 : ℝ), (30 : ℝ)⟩ : Point).y ∧
    ¬ List.Chain' (fun p q : Point => p.x < q.x) (createPathPoints 140 120 zeroRand) := by
  have hhead : createPathPoints 140 120 zeroRand =
      (⟨70, 30⟩ : Point) :: pathTail 0 60 60 zeroRand 12 1 70 30 := by
    simp only [createPathPoints]
    norm_num [randomRange, zeroRand]
  refine ⟨fun i => by norm_num [zeroRand],
    by simp [createPathPoints, pathTail_length], ?_, by norm_num, ?_⟩
  · rw [hhead]
    exact List.mem_cons_self _ _
  · intro hch
    rw [hhead, show (12 : ℕ) = 11 + 1 from rfl, pathTail_succ] at hch
    have hlt := (List.chain'_cons.mp hch).1
    norm_num at hlt

/-- C4: while recording, a pointer sample farther from the path polyline
than pathWidth * 0.52 always produces the edge-collision failure state —
recording stops, the trace and trail are discarded, the sample is not
appended, the status is the edge-collision failure and the stored verdict
is untouched (so the attempt is never completed), regardless of where the
sample lies. -/
theorem C4_edge_collision (s : St) (pointer : Point) (now : ℝ)
    (hrec : s.recording = true)
    (hne : ¬ s.pathPoints.length = 0)
    (hd : ((s.pathWidth * 0.52 : ℝ) : WithTop ℝ) < distanceToPath pointer s.pathPoints) :
    handlePointerMove s pointer now =
      failAttempt { s with lastTime := now } StatusMsg.edgeCollision ∧
    (handlePointerMove s pointer now).recording = false ∧
    (handlePointerMove s pointer now).movements = [] ∧
    (handlePointerMove s pointer now).trailPoints = [] ∧
    (handlePointerMove s pointer now).statusMsg = StatusMsg.edgeCollision ∧
    (handlePointerMove s pointer now).statusTone = Tone.fail ∧
    (handlePointerMove s pointer now).elapsed = 0 ∧
    (handlePointerMove s pointer now).lastResult = s.lastResult := by
  have heq : handlePointerMove s pointer now =
      failAttempt { s with lastTime := now } StatusMsg.edgeCollision := by
    simp only [handlePointerMove, if_neg hne, hrec, Bool.not_true, Bool.false_and,
      Bool.false_eq_true, if_false]
    rw [if_pos hd]
  rw [heq]
  exact ⟨rfl, rfl, rfl, rfl, rfl, rfl, rfl, rfl⟩

/-- Witness for C4: over the path `[(0,0), (10,0)]` with width 44, the
sample `(10, 30)` is 30 away from the path (beyond 44 * 0.52 = 22.88)
while lying inside the shrunk end-anchor circle, yet the attempt fails
with the edge-collision status and the trace is discarded. -/
theorem C4_edge_collision_witness :
    isInsideCircle ⟨10, 30⟩ ⟨10, 0⟩ (END_RADIUS - 4) = true ∧
    (handlePointerMove collideSt ⟨10, 30⟩ 7).statusMsg = StatusMsg.edgeCollision ∧
    (handlePointerMove collideSt ⟨10, 30⟩ 7).statusTone = Tone.fail ∧
    (handlePointerMove collideSt ⟨10, 30⟩ 7).movements = [] ∧
    (handlePointerMove collideSt ⟨10, 30⟩ 7).lastResult = none := by
  have h30 : Real.sqrt 900 = 30 := by
    rw [show (900 : ℝ) = 30 ^ 2 by norm_num, Real.sqrt_sq (by norm_num : (0:ℝ) ≤ 30)]
  have hseg : distanceToSegment ⟨10, 30⟩ ⟨0, 0⟩ ⟨10, 0⟩ = 30 := by
    simp only [distanceToSegment]
    rw [if_neg (by norm_num)]
    norm_num [clamp, hypot, h30]
  have hpath : distanceToPath ⟨10, 30⟩ [⟨0, 0⟩, ⟨10, 0⟩] = ((30 : ℝ) : WithTop ℝ) := by
    have hstep : distanceToPath (⟨10, 30⟩ : Point) [⟨0, 0⟩, ⟨10, 0⟩] =
        min ((30 : ℝ) : WithTop ℝ) ⊤ := by
      simp [distanceToPath, hseg]
    rw [hstep, min_eq_left le_top]
  have hd : ((collideSt.pathWidth * 0.52 : ℝ) : WithTop ℝ) <
      distanceToPath ⟨10, 30⟩ collideSt.pathPoints := by
    show ((PATH_WIDTH * 0.52 : ℝ) : WithTop ℝ) < distanceToPath ⟨10, 30⟩ [⟨0, 0⟩, ⟨10, 0⟩]
    rw [hpath]
    exact WithTop.coe_lt_coe.mpr (by norm_num [PATH_WIDTH])
  have h := C4_edge_collision collideSt ⟨10, 30⟩ 7 rfl (by simp [collideSt, baseSt]) hd
  refine ⟨?_, h.2.2.2.2.1, h.2.2.2.2.2.1, h.2.2.1, h.2.2.2.2.2.2.2⟩
  simp only [isInsideCircle, END_RADIUS, decide_eq_true_eq]
  norm_num

/-- C3: a completed attempt with fewer than 12 samples is reclassified as
failed with the trace-too-short status and the stored verdict is left
untouched (no evaluation runs); with 12 or more samples the trace is
evaluated and the verdict stored. -/
theorem C3_minimum_samples (s : St) :
    (s.movements.length < 12 →
      completeAttempt s =
        failAttempt { s with recording := false } StatusMsg.traceTooShort ∧
      (completeAttempt s).lastResult = s.lastResult ∧
      (completeAttempt s).statusMsg = StatusMsg.traceTooShort ∧
      (completeAttempt s).statusTone = Tone.fail ∧
      (completeAttempt s).movements = [] ∧
      (completeAttempt s).recording = false) ∧
    (12 ≤ s.movements.length →
      (completeAttempt s).lastResult = some (evaluateMovements s.movements) ∧
      (completeAttempt s).movements = [] ∧
      (completeAttempt s).recording = false) := by
  constructor
  · intro h
    have heq : completeAttempt s =
        failAttempt { s with recording := false } StatusMsg.traceTooShort := by
      unfold completeAttempt
      simp only [if_pos (show ({ s with recording := false } : St).movements.length < 12 from h)]
    rw [heq]
    exact ⟨rfl, rfl, rfl, rfl, rfl, rfl⟩
  · intro h
    have hn : ¬ ({ s with recording := false } : St).movements.length < 12 := not_lt.mpr h
    unfold completeAttempt
    simp only [if_neg hn]
    rcases hb : (evaluateMovements s.movements).pass with _ | _ <;>
      simp [hb, setStatus]

/-- Witness for C3: an 11-sample trace is rejected without evaluation, a
12-sample trace is evaluated. -/
theorem C3_minimum_samples_witness :
    (completeAttempt st11).statusMsg = StatusMsg.traceTooShort ∧
    (completeAttempt st11).lastResult = none ∧
    (completeAttempt st12).lastResult =
      some (evaluateMovements (List.replicate 12 defaultSample)) := by
  have h11 := (C3_minimum_samples st11).1 (by simp [st11, baseSt])
  have h12 := (C3_minimum_samples st12).2 (by simp [st12, baseSt])
  exact ⟨h11.2.2.1, h11.2.1, h12.1⟩

/-- C5: the source's path generator performs no bounds validation: called
with non-positive width and height it silently returns an ordinary
13-point (degenerate) path instead of signalling an error. -/
theorem C5_no_bounds_rejection :
    (createPathPoints 0 0 zeroRand).length = 13 := by
  simp [createPathPoints, pathTail_length]

/-- When no triple of consecutive samples has both movement vectors of
magnitude at least 0.4, the direction-noise loop makes no comparison. -/
theorem dirCounts_comparisons_zero (m : List Sample)
    (h : ∀ i, i + 2 < m.length →
      hypot ((m.getD (i + 1) defaultSample).x - (m.getD i defaultSample).x)
          ((m.getD (i + 1) defaultSample).y - (m.getD i defaultSample).y) < 0.4 ∨
        hypot ((m.getD (i + 2) defaultSample).x - (m.getD (i + 1) defaultSample).x)
          ((m.getD (i + 2) defaultSample).y - (m.getD (i + 1) defaultSample).y) < 0.4) :
    (dirCounts m).2 = 0 := by
  induction m with
  | nil => rfl
  | cons m0 rest ih =>
    rcases rest with _ | ⟨m1, rest1⟩
    · rfl
    rcases rest1 with _ | ⟨m2, rest2⟩
    · rfl
    have h0 := h 0 (by simp only [List.length_cons]; omega)
    simp only [List.getD_cons_zero, List.getD_cons_succ] at h0
    have htail : ∀ i, i + 2 < (m1 :: m2 :: rest2).length →
        hypot (((m1 :: m2 :: rest2).getD (i + 1) defaultSample).x -
              ((m1 :: m2 :: rest2).getD i defaultSample).x)
            (((m1 :: m2 :: rest2).getD (i + 1) defaultSample).y -
              ((m1 :: m2 :: rest2).getD i defaultSample).y) < 0.4 ∨
          hypot (((m1 :: m2 :: rest2).getD (i + 2) defaultSample).x -
              ((m1 :: m2 :: rest2).getD (i + 1) defaultSample).x)
            (((m1 :: m2 :: rest2).getD (i + 2) defaultSample).y -
              ((m1 :: m2 :: rest2).getD (i + 1) defaultSample).y) < 0.4 := by
      intro i hi
      have := h (i + 1) (by simp only [List.length_cons] at hi ⊢; omega)
      simpa only [List.getD_cons_succ] using this
    simp only [dirCounts]
    rw [if_pos h0]
    exact ih htail

/-- C7: feature extraction absorbs degenerate input: a trace of length at
most the window size 6 has zero velocity mean, variance, std and cv, and
a trace with no consecutive movement-vector pair of magnitudes both at
least 0.4 has direction-noise ratio 0. -/
theorem C7_degenerate_features (m : List Sample) :
    (m.length ≤ 6 →
      velocityStats m = (0, 0) ∧
      (extractFeatures m).velocityStd = 0 ∧
      (extractFeatures m).velocityCv = 0) ∧
    ((∀ i, i + 2 < m.length →
        hypot ((m.getD (i + 1) defaultSample).x - (m.getD i defaultSample).x)
            ((m.getD (i + 1) defaultSample).y - (m.getD i defaultSample).y) < 0.4 ∨
          hypot ((m.getD (i + 2) defaultSample).x - (m.getD (i + 1) defaultSample).x)
            ((m.getD (i + 2) defaultSample).y - (m.getD (i + 1) defaultSample).y) < 0.4) →
      directionNoiseRatio m = 0) := by
  constructor
  · intro h
    have hv : velocityStats m = (0, 0) := by simp [velocityStats, h]
    exact ⟨hv, by simp [extractFeatures, hv], by simp [extractFeatures, hv]⟩
  · intro h
    have hz := dirCounts_comparisons_zero m h
    simp [directionNoiseRatio, hz]

/-- Witness for C7: a three-sample stationary trace has zero velocity
statistics and zero direction noise. -/
theorem C7_degenerate_features_witness :
    velocityStats (List.replicate 3 defaultSample) = (0, 0) ∧
    directionNoiseRatio (List.replicate 3 defaultSample) = 0 := by
  have h := C7_degenerate_features (List.replicate 3 defaultSample)
  refine ⟨(h.1 (by simp)).1, h.2 ?_⟩
  intro i hi
  have hi0 : i = 0 := by simp only [List.length_replicate] at hi; omega
  subst hi0
  left
  simp only [List.replicate_succ, List.getD_cons_zero, List.getD_cons_succ, defaultSample]
  norm_num [hypot]

/-- C9: beginRecording clears the movement list (before any sample is
appended), and failAttempt, completeAttempt, resetAttempt and
generateNewPath all leave the movement list empty with the recording
flag false. -/
theorem C9_fresh_trace (s : St) (now width height : ℝ) (rand : ℕ → ℝ)
    (msg : StatusMsg) :
    (beginRecording s now).movements = [] ∧
    (beginRecording s now).recording = true ∧
    (failAttempt s msg).movements = [] ∧
    (failAttempt s msg).recording = false ∧
    (completeAttempt s).movements = [] ∧
    (completeAttempt s).recording = false ∧
    (resetAttempt s).movements = [] ∧
    (resetAttempt s).recording = false ∧
    (generateNewPath s width height rand).movements = [] ∧
    (generateNewPath s width height rand).recording = false := by
  have hc : (completeAttempt s).movements = [] ∧ (completeAttempt s).recording = false := by
    by_cases h : s.movements.length < 12
    · simp [completeAttempt, failAttempt, setStatus, h]
    · rcases hb : (evaluateMovements s.movements).pass with _ | _ <;>
        simp [completeAttempt, setStatus, h, hb]
  exact ⟨rfl, rfl, rfl, rfl, hc.1, hc.2, rfl, rfl, rfl, rfl⟩

/-- C10: resetAttempt touches only the per-attempt state (movements,
trail, recording flag, elapsed time) and leaves the path, path width and
last verdict unchanged, while generateNewPath replaces the path and
clears the verdict to null. -/
theorem C10_reset_frame (s : St) (width height : ℝ) (rand : ℕ → ℝ) :
    (resetAttempt s).pathPoints = s.pathPoints ∧
    (resetAttempt s).pathWidth = s.pathWidth ∧
    (resetAttempt s).lastResult = s.lastResult ∧
    (resetAttempt s).lastTime = s.lastTime ∧
    (resetAttempt s).movements = [] ∧
    (resetAttempt s).trailPoints = [] ∧
    (resetAttempt s).recording = false ∧
    (resetAttempt s).elapsed = 0 ∧
    (generateNewPath s width height rand).pathPoints = createPathPoints width height rand ∧
    (generateNewPath s width height rand).lastResult = none :=
  ⟨rfl, rfl, rfl, rfl, rfl, rfl, rfl, rfl, rfl, rfl⟩


/-! Facts about straight constant-velocity traces (claim C8). -/

/-- `hypot` dominates the absolute value of its first argument. -/
theorem abs_le_hypot_left (x y : ℝ) : |x| ≤ hypot x y := by
  rw [hypot, ← Real.sqrt_mul_self_eq_abs]
  exact Real.sqrt_le_sqrt (by nlinarith [mul_self_nonneg y])

/-- `hypot` dominates the absolute value of its second argument. -/
theorem abs_le_hypot_right (x y : ℝ) : |y| ≤ hypot x y := by
  rw [hypot, ← Real.sqrt_mul_self_eq_abs]
  exact Real.sqrt_le_sqrt (by nlinarith [mul_self_nonneg x])

/-- The square of `hypot` recovers the sum of squares. -/
theorem hypot_mul_self (x y : ℝ) : hypot x y * hypot x y = x * x + y * y :=
  Real.mul_self_sqrt (add_nonneg (mul_self_nonneg x) (mul_self_nonneg y))

/-- A straight trace has one sample per step. -/
theorem straightTrace_length (d : ℝ) (v : Point) :
    ∀ (n : ℕ) (p : Point) (e : ℝ), (straightTrace d v n p e).length = n := by
  intro n
  induction n with
  | zero => intro p e; rfl
  | succ k ih => intro p e; simpa [straightTrace] using ih _ _

/-- Closed form of the samples of a straight trace. -/
theorem straightTrace_getD (d : ℝ) (v : Point) :
    ∀ (n i : ℕ) (p : Point) (e : ℝ), i < n →
      (straightTrace d v n p e).getD i defaultSample =
        ⟨p.x + i * v.x, p.y + i * v.y, d, e + (i + 1) * d⟩ := by
  intro n
  induction n with
  | zero => intro i p e h; exact absurd h (Nat.not_lt_zero i)
  | succ k ih =>
    intro i p e h
    have hcons : straightTrace d v (k + 1) p e =
        ⟨p.x, p.y, d, e + d⟩ :: straightTrace d v k ⟨p.x + v.x, p.y + v.y⟩ (e + d) := rfl
    rcases i with _ | j
    · rw [hcons, List.getD_cons_zero]
      simp only [Sample.mk.injEq]
      norm_num
    · have hj : j < k := by omega
      rw [hcons, List.getD_cons_succ, ih j _ _ hj]
      simp only [Sample.mk.injEq]
      push_cast
      refine ⟨by ring, by ring, by trivial, by ring⟩

/-- The sum of a constant list. -/
theorem sum_of_const (l : List ℝ) (c : ℝ) (hc : ∀ x ∈ l, x = c) :
    l.sum = l.length * c := by
  induction l with
  | nil => simp
  | cons a t ih =>
    have ha := hc a (List.mem_cons_self a t)
    have ht := ih fun x hx => hc x (List.mem_cons_of_mem a hx)
    simp only [List.sum_cons, List.length_cons, ha, ht]
    push_cast
    ring

/-- The empirical variance of a constant list is zero. -/
theorem variance_zero_of_const (l : List ℝ) (c : ℝ) (hc : ∀ x ∈ l, x = c) :
    ((l.map fun x => (x - l.sum / (l.length : ℝ)) ^ 2).sum) / (l.length : ℝ) = 0 := by
  rcases eq_or_ne l.length 0 with h0 | h0
  · rw [List.length_eq_zero.mp h0]
    simp
  · have hmean : l.sum / (l.length : ℝ) = c := by
      rw [sum_of_const l c hc]
      field_simp
    have hmap : (l.map fun x => (x - l.sum / (l.length : ℝ)) ^ 2) = l.map fun _ => 0 :=
      List.map_congr_left fun x hx => by rw [hmean, hc x hx]; ring
    rw [hmap]
    simp

/-- On a straight constant-velocity trace with uniform positive time step,
every windowed velocity sample equals the same constant, so the variance
computed by `velocityStats` is zero. -/
theorem straightTrace_variance (d : ℝ) (v : Point) (n : ℕ) (p : Point) (e : ℝ)
    (hd : 0 < d) : (velocityStats (straightTrace d v n p e)).2 = 0 := by
  by_cases h6 : (straightTrace d v n p e).length ≤ 6
  · simp [velocityStats, h6]
  · have hn : 6 < n := by rwa [straightTrace_length, not_le] at h6
    have hconst : ∀ x ∈ velocitySamples (straightTrace d v n p e),
        x = hypot (6 * v.x) (6 * v.y) / (6 * d) := by
      intro x hx
      simp only [velocitySamples, straightTrace_length] at hx
      obtain ⟨a, ha, hfa⟩ := List.mem_filterMap.mp hx
      obtain ⟨ha6, han0⟩ := List.mem_range'_1.mp ha
      have han : a < n := by omega
      have ham : a - 6 < n := by omega
      rw [straightTrace_getD d v n a p e han,
        straightTrace_getD d v n (a - 6) p e ham] at hfa
      dsimp only at hfa
      have hcast : ((a - 6 : ℕ) : ℝ) = (a : ℝ) - 6 := by
        rw [Nat.cast_sub ha6]
        norm_num
      have hdt : e + ((a : ℝ) + 1) * d - (e + (((a - 6 : ℕ) : ℝ) + 1) * d) = 6 * d := by
        rw [hcast]; ring
      rw [hdt, if_neg (by nlinarith : ¬ (6 * d ≤ 0))] at hfa
      have hxv : p.x + (a : ℝ) * v.x - (p.x + ((a - 6 : ℕ) : ℝ) * v.x) = 6 * v.x := by
        rw [hcast]; ring
      have hyv : p.y + (a : ℝ) * v.y - (p.y + ((a - 6 : ℕ) : ℝ) * v.y) = 6 * v.y := by
        rw [hcast]; ring
      rw [hxv, hyv] at hfa
      exact (Option.some.injEq _ _ ▸ hfa).symm
    simp only [velocityStats, if_neg h6]
    by_cases hlen : (velocitySamples (straightTrace d v n p e)).length = 0
    · simp [hlen]
    · simp only [if_neg hlen]
      exact variance_zero_of_const _ _ hconst

/-- With a per-step displacement of at least 3 pixels along some axis, a
straight trace triggers no jitter count. -/
theorem straightTrace_jitterScore_zero (d : ℝ) (v : Point)
    (hv : 3 ≤ |v.x| ∨ 3 ≤ |v.y|) :
    ∀ (n : ℕ) (p : Point) (e : ℝ), jitterScore (straightTrace d v n p e) = 0 := by
  intro n
  induction n with
  | zero => intro p e; rfl
  | succ k ih =>
    intro p e
    rcases k with _ | k2
    · rfl
    · have hcons : straightTrace d v (k2 + 1 + 1) p e =
          ⟨p.x, p.y, d, e + d⟩ ::
            straightTrace d v (k2 + 1) ⟨p.x + v.x, p.y + v.y⟩ (e + d) := rfl
      have hcons2 : straightTrace d v (k2 + 1) (⟨p.x + v.x, p.y + v.y⟩ : Point) (e + d) =
          ⟨p.x + v.x, p.y + v.y, d, e + d + d⟩ ::
            straightTrace d v k2 ⟨p.x + v.x + v.x, p.y + v.y + v.y⟩ (e + d + d) := rfl
      have hcond : ¬ (|p.x + v.x - p.x| < 3 ∧ |p.y + v.y - p.y| < 3) := by
        rw [add_sub_cancel_left, add_sub_cancel_left]
        rcases hv with h | h
        · exact fun hc => absurd hc.1 (not_lt.mpr h)
        · exact fun hc => absurd hc.2 (not_lt.mpr h)
      rw [hcons, hcons2]
      simp only [jitterScore]
      rw [if_neg hcond, ← hcons2, zero_add]
      exact ih _ _

/-- With a per-step displacement below 3 pixels on both axes, every
consecutive pair of a straight trace counts as jitter. -/
theorem straightTrace_jitterScore_small (d : ℝ) (v : Point)
    (hx : |v.x| < 3) (hy : |v.y| < 3) :
    ∀ (n : ℕ) (p : Point) (e : ℝ), jitterScore (straightTrace d v n p e) = n - 1 := by
  intro n
  induction n with
  | zero => intro p e; rfl
  | succ k ih =>
    intro p e
    rcases k with _ | k2
    · rfl
    · have hcons : straightTrace d v (k2 + 1 + 1) p e =
          ⟨p.x, p.y, d, e + d⟩ ::
            straightTrace d v (k2 + 1) ⟨p.x + v.x, p.y + v.y⟩ (e + d) := rfl
      have hcons2 : straightTrace d v (k2 + 1) (⟨p.x + v.x, p.y + v.y⟩ : Point) (e + d) =
          ⟨p.x + v.x, p.y + v.y, d, e + d + d⟩ ::
            straightTrace d v k2 ⟨p.x + v.x + v.x, p.y + v.y + v.y⟩ (e + d + d) := rfl
      have hcond : |p.x + v.x - p.x| < 3 ∧ |p.y + v.y - p.y| < 3 := by
        rw [add_sub_cancel_left, add_sub_cancel_left]
        exact ⟨hx, hy⟩
      rw [hcons, hcons2]
      simp only [jitterScore]
      rw [if_pos hcond, ← hcons2, ih _ _]
      omega

/-- With a uniform time step of at most 50, a straight trace has no idle
pause. -/
theorem straightTrace_idlePauses (d : ℝ) (v : Point) (hd50 : d ≤ 50) :
    ∀ (n : ℕ) (p : Point) (e : ℝ), idlePauses (straightTrace d v n p e) = 0 := by
  intro n
  induction n with
  | zero => intro p e; rfl
  | succ k ih =>
    intro p e
    have hcons : straightTrace d v (k + 1) p e =
        ⟨p.x, p.y, d, e + d⟩ :: straightTrace d v k ⟨p.x + v.x, p.y + v.y⟩ (e + d) := rfl
    rw [hcons]
    simp only [idlePauses] at ih ⊢
    rw [List.filter_cons_of_neg]
    · exact ih _ _
    · simpa using not_lt.mpr hd50

/-- On a straight trace whose velocity magnitude is at least 0.4, every
triple is compared, the cosine similarity is exactly 1, and no comparison
counts as noisy. -/
theorem straightTrace_dirCounts_noisy (d : ℝ) (v : Point)
    (hm : ¬ hypot v.x v.y < 0.4) (ha : 0 < v.x * v.x + v.y * v.y) :
    ∀ (n : ℕ) (p : Point) (e : ℝ), (dirCounts (straightTrace d v n p e)).1 = 0 := by
  intro n
  induction n with
  | zero => intro p e; rfl
  | succ k ih =>
    intro p e
    rcases k with _ | k2
    · rfl
    rcases k2 with _ | k3
    · rfl
    have hcons : straightTrace d v (k3 + 1 + 1 + 1) p e =
        ⟨p.x, p.y, d, e + d⟩ ::
          ⟨p.x + v.x, p.y + v.y, d, e + d + d⟩ ::
            ⟨p.x + v.x + v.x, p.y + v.y + v.y, d, e + d + d + d⟩ ::
              straightTrace d v k3 ⟨p.x + v.x + v.x + v.x, p.y + v.y + v.y + v.y⟩
                (e + d + d + d) := rfl
    have hcons2 : straightTrace d v (k3 + 1 + 1) (⟨p.x + v.x, p.y + v.y⟩ : Point) (e + d) =
        ⟨p.x + v.x, p.y + v.y, d, e + d + d⟩ ::
          ⟨p.x + v.x + v.x, p.y + v.y + v.y, d, e + d + d + d⟩ ::
            straightTrace d v k3 ⟨p.x + v.x + v.x + v.x, p.y + v.y + v.y + v.y⟩
              (e + d + d + d) := rfl
    rw [hcons]
    simp only [dirCounts, add_sub_cancel_left]
    rw [if_neg (by tauto : ¬ (hypot v.x v.y < 0.4 ∨ hypot v.x v.y < 0.4))]
    have hdot : (v.x * v.x + v.y * v.y) / (hypot v.x v.y * hypot v.x v.y) = 1 := by
      rw [hypot_mul_self, div_self ha.ne']
    rw [hdot, if_neg (by norm_num : ¬ (1 : ℝ) < 0.93), ← hcons2]
    exact ih _ _

/-- C8 (amended): every trace on an exact straight line at constant
velocity with uniform dt in (0, 50] and per-step displacement of at least
3 pixels along some axis yields variance 0, velocityCv 0, directionNoise
0, jitterRatio 0 and idlePauses 0, hence pass = false. -/
theorem C8_straight_constant_trace (n : ℕ) (p v : Point) (d e : ℝ)
    (hd : 0 < d) (hd50 : d ≤ 50) (hv : 3 ≤ |v.x| ∨ 3 ≤ |v.y|) :
    (evaluateMovements (straightTrace d v n p e)).features.variance = 0 ∧
    (evaluateMovements (straightTrace d v n p e)).features.velocityCv = 0 ∧
    (evaluateMovements (straightTrace d v n p e)).features.directionNoise = 0 ∧
    (evaluateMovements (straightTrace d v n p e)).features.jitterRatio = 0 ∧
    (evaluateMovements (straightTrace d v n p e)).features.pauses = 0 ∧
    (evaluateMovements (straightTrace d v n p e)).pass = false := by
  have hmag : ¬ hypot v.x v.y < 0.4 := by
    rcases hv with h | h
    · have := abs_le_hypot_left v.x v.y
      exact not_lt.mpr (by linarith)
    · have := abs_le_hypot_right v.x v.y
      exact not_lt.mpr (by linarith)
  have hpos : 0 < v.x * v.x + v.y * v.y := by
    rcases hv with h | h
    · nlinarith [abs_mul_abs_self v.x, mul_self_nonneg v.y]
    · nlinarith [abs_mul_abs_self v.y, mul_self_nonneg v.x]
  have hvar : (velocityStats (straightTrace d v n p e)).2 = 0 :=
    straightTrace_variance d v n p e hd
  have hjit : jitterScore (straightTrace d v n p e) = 0 :=
    straightTrace_jitterScore_zero d v hv n p e
  have hidle : idlePauses (straightTrace d v n p e) = 0 :=
    straightTrace_idlePauses d v hd50 n p e
  have hnoise : directionNoiseRatio (straightTrace d v n p e) = 0 := by
    have hz := straightTrace_dirCounts_noisy d v hmag hpos n p e
    simp only [directionNoiseRatio, hz]
    split <;> simp
  have hfvar : (extractFeatures (straightTrace d v n p e)).variance = 0 := hvar
  have hfcv : (extractFeatures (straightTrace d v n p e)).velocityCv = 0 := by
    show (if (velocityStats (straightTrace d v n p e)).1 = 0 then (0 : ℝ)
        else Real.sqrt (max (velocityStats (straightTrace d v n p e)).2 0) /
          (velocityStats (straightTrace d v n p e)).1) = 0
    rw [hvar]
    split
    · rfl
    · simp [Real.sqrt_zero]
  have hfnoise : (extractFeatures (straightTrace d v n p e)).directionNoise = 0 := hnoise
  have hfjr : (extractFeatures (straightTrace d v n p e)).jitterRatio = 0 := by
    show ((jitterScore (straightTrace d v n p e) : ℝ)) /
        ((max 1 ((straightTrace d v n p e).length - 1) : ℕ) : ℝ) = 0
    rw [hjit]
    simp
  have hfpauses : (extractFeatures (straightTrace d v n p e)).pauses = 0 := hidle
  have hpass : (evaluateMovements (straightTrace d v n p e)).pass = false := by
    show (classify (extractFeatures (straightTrace d v n p e))).pass = false
    simp only [classify]
    rw [hfvar, hfcv, hfnoise]
    have d1 : decide ((0 : ℝ) > 0.01) = false := decide_eq_false (by norm_num)
    have d2 : decide ((0 : ℝ) > 0.25) = false := decide_eq_false (by norm_num)
    have d3 : decide ((0 : ℝ) > 0.08) = false := decide_eq_false (by norm_num)
    rw [d1, d2, d3]
    rfl
  exact ⟨hfvar, hfcv, hfnoise, hfjr, hfpauses, hpass⟩

/-- Witness for C8: 80 samples stepping 5 pixels right every 10 time
units fail the evaluation with all chaos features at zero. -/
theorem C8_straight_constant_trace_witness :
    (evaluateMovements (straightTrace 10 ⟨5, 0⟩ 80 ⟨0, 0⟩ 0)).features.variance = 0 ∧
    (evaluateMovements (straightTrace 10 ⟨5, 0⟩ 80 ⟨0, 0⟩ 0)).features.jitterRatio = 0 ∧
    (evaluateMovements (straightTrace 10 ⟨5, 0⟩ 80 ⟨0, 0⟩ 0)).pass = false := by
  have h := C8_straight_constant_trace 80 ⟨0, 0⟩ ⟨5, 0⟩ 10 0
    (by norm_num) (by norm_num) (Or.inl (by norm_num))
  exact ⟨h.1, h.2.2.2.1, h.2.2.2.2.2⟩

/-- Counterexample for C8 as stated: a straight trace of 80 samples with
uniform dt = 10 whose per-step displacement (2.2, 2.2) has Euclidean norm
at least 3 pixels, yet whose jitter ratio is 1, not 0 — the Euclidean
reading of "per-step displacement of at least 3 pixels" does not force a
zero jitter ratio. -/
theorem C8_straight_constant_trace_cex :
    (3 : ℝ) ≤ hypot (11 / 5) (11 / 5) ∧
    (evaluateMovements (straightTrace 10 ⟨11 / 5, 11 / 5⟩ 80 ⟨0, 0⟩ 0)).features.jitterRatio
      = 1 ∧
    ¬ (evaluateMovements (straightTrace 10 ⟨11 / 5, 11 / 5⟩ 80 ⟨0, 0⟩ 0)).features.jitterRatio
      = 0 := by
  have h3 : (3 : ℝ) ≤ hypot (11 / 5) (11 / 5) := by
    rw [hypot, show (11 / 5 : ℝ) * (11 / 5) + (11 / 5) * (11 / 5) = 242 / 25 by norm_num,
      show (3 : ℝ) = Real.sqrt 9 by
        rw [show (9 : ℝ) = 3 ^ 2 by norm_num, Real.sqrt_sq (by norm_num : (0 : ℝ) ≤ 3)]]
    exact Real.sqrt_le_sqrt (by norm_num)
  have hj : jitterScore (straightTrace 10 ⟨11 / 5, 11 / 5⟩ 80 ⟨0, 0⟩ 0) = 79 := by
    have := straightTrace_jitterScore_small 10 ⟨11 / 5, 11 / 5⟩
      (by rw [abs_of_nonneg (by norm_num : (0 : ℝ) ≤ 11 / 5)]; norm_num)
      (by rw [abs_of_nonneg (by norm_num : (0 : ℝ) ≤ 11 / 5)]; norm_num) 80 ⟨0, 0⟩ 0
    simpa using this
  have hr : (evaluateMovements
      (straightTrace 10 ⟨11 / 5, 11 / 5⟩ 80 ⟨0, 0⟩ 0)).features.jitterRatio = 1 := by
    show ((jitterScore (straightTrace 10 ⟨11 / 5, 11 / 5⟩ 80 ⟨0, 0⟩ 0) : ℝ)) /
        ((max 1 ((straightTrace 10 ⟨11 / 5, 11 / 5⟩ 80 ⟨0, 0⟩ 0).length - 1) : ℕ) : ℝ) = 1
    rw [hj, straightTrace_length]
    norm_num
  exact ⟨h3, hr, by rw [hr]; norm_num⟩
